import Mathlib

/-
  Verification of the pagination-and-selection core of the Landing component
  (src/src/pages/Landing.tsx).

  The component state (React useState hooks), the bulk-selection routine
  (handleRowSelection / fetchAdditionalPages), the page-change handler
  (handlePageChange), the manual selection replacement (the DataTable
  onSelectionChange callback), and the response handling of
  fetchArtworksByPage are embedded as pure Lean functions.  The network is
  modelled by an oracle `fetcher : Nat → Except FetchErr (List Artwork)`
  mapping a page number to the `data.data` array of the response (the only
  field the accumulation loop reads), or to an error when the transport or
  JSON step fails.  JavaScript's insertion-ordered `Map<number, Artwork>` is
  embedded as an association list in insertion order, with `set` replacing
  the value in place for an existing key and appending for a fresh key,
  exactly the ECMAScript Map semantics.
-/

namespace PrimeReactLanding

/-- A record of the artworks collection, as used by the component:
the `id` identity key plus the displayed attributes. -/
structure Artwork where
  id : Nat
  title : String
  place_of_origin : String
  artist_display : String
  inscriptions : String
  date_start : Int
  date_end : Int
deriving DecidableEq, Repr

/-- JavaScript `Map<number, Artwork>` in insertion order. -/
abbrev SelMap := List (Nat × Artwork)

/-- `m.set k v` of a JS Map: replaces the value in place when `k` is already
a key (the entry keeps its position), otherwise appends `(k, v)` at the end. -/
def mapSet (m : SelMap) (k : Nat) (v : Artwork) : SelMap :=
  if m.any (fun p => p.1 == k) then
    m.map (fun p => if p.1 == k then (k, v) else p)
  else
    m ++ [(k, v)]

/-- The key sequence of the map, in iteration (= insertion) order. -/
def mapKeys (m : SelMap) : List Nat := m.map Prod.fst

/-- `Array.from(m.values())`: the values in iteration (= insertion) order. -/
def mapValues (m : SelMap) : List Artwork := m.map Prod.snd

/-- `const updated = new Map(selectedArtworks); rows.forEach(a => updated.set(a.id, a))`
(handleRowSelection, lines 86-89). -/
def mergeIn (m : SelMap) (rows : List Artwork) : SelMap :=
  rows.foldl (fun acc a => mapSet acc a.id a) m

/-- The DataTable onSelectionChange callback (lines 154-160): builds a fresh
Map and inserts every reported record by its id, in order. -/
def replaceAll (rows : List Artwork) : SelMap :=
  rows.foldl (fun acc a => mapSet acc a.id a) []

/-- Failure of a page fetch: the transport or JSON step rejecting
(`NetworkError` of the spec), or a JS TypeError thrown while reading the
response (the shape the code actually produces instead of a `DecodeError`). -/
inductive FetchErr where
  | networkError
  | jsTypeError
deriving DecidableEq, Repr

/-- The component state held in the useState hooks (lines 16-25). -/
structure LandingState where
  artworks : List Artwork
  currentPage : Nat
  firstRow : Nat
  totalRecords : Nat
  selectedArtworks : SelMap
  showFilter : Bool
  rowsToFetch : Option Nat
deriving DecidableEq, Repr

/-- The while loop of `fetchAdditionalPages` (lines 57-67):
`while (fetchedArtworks.length < rowsNeeded && nextPage <= totalRecords / 12)`.
In JS the comparison divides real numbers; since `nextPage` is an integer,
`nextPage <= totalRecords / 12` holds iff `12 * nextPage <= totalRecords`,
which is exactly the Nat floor-division comparison used here.
Besides the accumulated records the embedding returns the trace of page
numbers fetched, in fetch order. -/
def fetchAdditionalPagesLoop (fetcher : Nat → Except FetchErr (List Artwork))
    (rowsNeeded totalRecords : Nat) (fetchedArtworks : List Artwork)
    (nextPage : Nat) : Except FetchErr (List Artwork × List Nat) :=
  if h : fetchedArtworks.length < rowsNeeded ∧ nextPage ≤ totalRecords / 12 then
    match fetcher nextPage with
    | .error e => .error e
    | .ok pageData =>
      match fetchAdditionalPagesLoop fetcher rowsNeeded totalRecords
          (fetchedArtworks ++ pageData) (nextPage + 1) with
      | .error e => .error e
      | .ok (res, trace) => .ok (res, nextPage :: trace)
  else
    .ok (fetchedArtworks, [])
termination_by totalRecords / 12 + 1 - nextPage
decreasing_by omega

/-- `fetchAdditionalPages(rowsNeeded, currentPage)` (lines 50-70): starts from
a copy of the loaded `artworks`, fetches pages `currentPage+1, …` while needed,
and returns `fetchedArtworks.slice(0, rowsNeeded)` together with the trace of
fetched page numbers.  `artworks` and `totalRecords` are the closure captures. -/
def fetchAdditionalPages (fetcher : Nat → Except FetchErr (List Artwork))
    (artworks : List Artwork) (totalRecords rowsNeeded currentPage : Nat) :
    Except FetchErr (List Artwork × List Nat) :=
  match fetchAdditionalPagesLoop fetcher rowsNeeded totalRecords artworks
      (currentPage + 1) with
  | .error e => .error e
  | .ok (fetched, trace) => .ok (fetched.take rowsNeeded, trace)

/-- JS truthiness of `rowsToFetch : number | null`: `!rowsToFetch` is true for
`null` and for `0`. -/
def jsFalsy : Option Nat → Bool
  | none => true
  | some n => n == 0

/-- `handleRowSelection` (lines 75-93) as a state transformer.  It returns the
new state together with the error, if any, of the awaited accumulation; on an
error the async function rejects before any `set*` call, so the state is
returned unchanged.  On the fast path (`rowsNeeded ≤ artworks.length`) the
selected rows are `[...artworks]`, the whole loaded page. -/
def handleRowSelection (fetcher : Nat → Except FetchErr (List Artwork))
    (st : LandingState) : LandingState × Option FetchErr :=
  if jsFalsy st.rowsToFetch then
    (st, none)
  else
    let rowsNeeded := st.rowsToFetch.getD 0
    let selectedRowsE : Except FetchErr (List Artwork) :=
      if rowsNeeded > st.artworks.length then
        (fetchAdditionalPages fetcher st.artworks st.totalRecords rowsNeeded
          st.currentPage).map Prod.fst
      else
        .ok st.artworks
    match selectedRowsE with
    | .error e => (st, some e)
    | .ok selectedRows =>
      ({ st with
          selectedArtworks := mergeIn st.selectedArtworks selectedRows,
          showFilter := false }, none)

/-- `handlePageChange` (lines 99-102): `setFirstRow(event.first);
setCurrentPage(Math.floor(event.first / event.rows) + 1)`. -/
def handlePageChange (st : LandingState) (first rows : Nat) : LandingState :=
  { st with firstRow := first, currentPage := first / rows + 1 }

/-- The DataTable onSelectionChange handler (lines 154-160) as a state
transformer: replaces the selection map wholesale. -/
def onSelectionChange (st : LandingState) (value : List Artwork) : LandingState :=
  { st with selectedArtworks := replaceAll value }

/-- The `pagination` object of the API response; `total` is `none` when the
`total` field is absent. -/
structure Pagination where
  total : Option Nat
deriving DecidableEq, Repr

/-- The parsed JSON body of a response: `dataArr` models `data.data`
(`none` = absent/undefined) and `pagination` models `data.pagination`
(`none` = absent). -/
structure ApiBody where
  dataArr : Option (List Artwork)
  pagination : Option Pagination
deriving DecidableEq, Repr

/-- The two state cells written by `fetchArtworksByPage`; `none` models the
JS value `undefined` having been stored. -/
structure PageFetchState where
  artworksVal : Option (List Artwork)
  totalVal : Option Nat
deriving DecidableEq, Repr

/-- `fetchArtworksByPage` response handling (lines 36-43).  `outcome` is
`none` when the transport or `response.json()` rejects (no `.then` body runs).
On a body, `setArtworks(data.data)` runs first, unconditionally; then
`data.pagination.total` is read: if `pagination` is absent this throws a
TypeError (after artworks was already overwritten); otherwise
`setTotalRecords` stores whatever `total` holds, present or not.  No shape
validation is performed anywhere. -/
def fetchArtworksByPage (outcome : Option ApiBody) (st : PageFetchState) :
    PageFetchState × Option FetchErr :=
  match outcome with
  | none => (st, some .networkError)
  | some body =>
    let st1 : PageFetchState := { st with artworksVal := body.dataArr }
    match body.pagination with
    | none => (st1, some .jsTypeError)
    | some pg => ({ st1 with totalVal := pg.total }, none)

/-- A concrete artwork with identity `n`, for witnesses and counterexamples. -/
def mkArt (n : Nat) : Artwork :=
  { id := n, title := "", place_of_origin := "", artist_display := ""
    inscriptions := "", date_start := 0, date_end := 0 }

/-- A concrete page of `count` records with ids `start, start+1, …`. -/
def pageOf (start count : Nat) : List Artwork :=
  (List.range count).map (fun i => mkArt (start + i))

/-! ### Lemmas about the JS Map embedding -/

theorem mapKeys_append (m1 m2 : SelMap) :
    mapKeys (m1 ++ m2) = mapKeys m1 ++ mapKeys m2 := by
  simp [mapKeys]

theorem any_key_iff (m : SelMap) (k : Nat) :
    (m.any (fun p => p.1 == k)) = true ↔ k ∈ mapKeys m := by
  simp [mapKeys, List.any_eq_true, List.mem_map]

theorem mapSet_fresh (m : SelMap) (k : Nat) (v : Artwork) (h : k ∉ mapKeys m) :
    mapSet m k v = m ++ [(k, v)] := by
  unfold mapSet
  rw [if_neg (fun hc => h ((any_key_iff m k).mp hc))]

theorem mapSet_keys_of_mem (m : SelMap) (k : Nat) (v : Artwork)
    (h : k ∈ mapKeys m) : mapKeys (mapSet m k v) = mapKeys m := by
  unfold mapSet
  rw [if_pos ((any_key_iff m k).mpr h)]
  unfold mapKeys
  rw [List.map_map]
  apply List.map_congr_left
  intro p hp
  by_cases hpk : p.1 = k
  · simp [Function.comp, hpk]
  · simp [Function.comp, hpk]

theorem mergeIn_keys_of_subset : ∀ (rows : List Artwork) (m : SelMap),
    (∀ b ∈ rows, b.id ∈ mapKeys m) → mapKeys (mergeIn m rows) = mapKeys m := by
  intro rows
  induction rows with
  | nil => intro m _; rfl
  | cons a rows ih =>
    intro m hmem
    have hka : mapKeys (mapSet m a.id a) = mapKeys m :=
      mapSet_keys_of_mem m a.id a (hmem a (List.mem_cons_self a rows))
    have hstep : mergeIn m (a :: rows) = mergeIn (mapSet m a.id a) rows := rfl
    rw [hstep,
      ih (mapSet m a.id a)
        (fun b hb => by rw [hka]; exact hmem b (List.mem_cons_of_mem a hb)),
      hka]

theorem foldl_mapSet_fresh : ∀ (X : List Artwork) (m : SelMap),
    (∀ a ∈ X, a.id ∉ mapKeys m) → (X.map Artwork.id).Nodup →
    X.foldl (fun acc a => mapSet acc a.id a) m = m ++ X.map (fun a => (a.id, a)) := by
  intro X
  induction X with
  | nil => intro m _ _; simp
  | cons a X ih =>
    intro m hfresh hnodup
    have hmk : mapSet m a.id a = m ++ [(a.id, a)] :=
      mapSet_fresh m a.id a (hfresh a (List.mem_cons_self a X))
    simp only [List.map_cons, List.nodup_cons] at hnodup
    have hfresh2 : ∀ b ∈ X, b.id ∉ mapKeys (m ++ [(a.id, a)]) := by
      intro b hb
      rw [mapKeys_append]
      simp only [List.mem_append]
      rintro (hm | hone)
      · exact hfresh b (List.mem_cons_of_mem a hb) hm
      · have hbid : b.id = a.id := by simpa [mapKeys] using hone
        apply hnodup.1
        rw [← hbid]
        exact List.mem_map_of_mem Artwork.id hb
    calc (a :: X).foldl (fun acc b => mapSet acc b.id b) m
        = X.foldl (fun acc b => mapSet acc b.id b) (mapSet m a.id a) := by
          simp
      _ = X.foldl (fun acc b => mapSet acc b.id b) (m ++ [(a.id, a)]) := by
          rw [hmk]
      _ = (m ++ [(a.id, a)]) ++ X.map (fun b => (b.id, b)) := ih _ hfresh2 hnodup.2
      _ = m ++ (a :: X).map (fun b => (b.id, b)) := by simp

theorem replaceAll_eq (X : List Artwork) (h : (X.map Artwork.id).Nodup) :
    replaceAll X = X.map (fun a => (a.id, a)) := by
  have hfold := foldl_mapSet_fresh X [] (fun a _ => by simp [mapKeys]) h
  simpa [replaceAll] using hfold

/-! ### Lemmas about the accumulation loop -/

theorem loop_trace_range (fetcher : Nat → Except FetchErr (List Artwork))
    (N T : Nat) (acc : List Artwork) (p : Nat) :
    ∀ res tr, fetchAdditionalPagesLoop fetcher N T acc p = .ok (res, tr) →
      tr = List.range' p tr.length := by
  induction acc, p using fetchAdditionalPagesLoop.induct fetcher N T with
  | case1 acc p h e hf =>
    intro res tr heq
    rw [fetchAdditionalPagesLoop] at heq
    simp only [dif_pos h, hf] at heq
    exact absurd heq (by simp)
  | case2 acc p h pageData hf e herr ih =>
    intro res tr heq
    rw [fetchAdditionalPagesLoop] at heq
    simp only [dif_pos h, hf, herr] at heq
    exact absurd heq (by simp)
  | case3 acc p h pageData hf res0 tr0 hrec ih =>
    intro res tr heq
    rw [fetchAdditionalPagesLoop] at heq
    simp only [dif_pos h, hf, hrec, Except.ok.injEq, Prod.mk.injEq] at heq
    obtain ⟨-, htr⟩ := heq
    subst htr
    have ih0 := ih res0 tr0 hrec
    simp only [List.length_cons]
    rw [List.range'_succ, ← ih0]
  | case4 acc p h =>
    intro res tr heq
    rw [fetchAdditionalPagesLoop] at heq
    simp only [dif_neg h, Except.ok.injEq, Prod.mk.injEq] at heq
    obtain ⟨-, htr⟩ := heq
    subst htr
    simp

theorem loop_trace_length_le (fetcher : Nat → Except FetchErr (List Artwork))
    (N T : Nat) (acc : List Artwork) (p : Nat) :
    ∀ res tr, fetchAdditionalPagesLoop fetcher N T acc p = .ok (res, tr) →
      tr.length ≤ T / 12 + 1 - p := by
  induction acc, p using fetchAdditionalPagesLoop.induct fetcher N T with
  | case1 acc p h e hf =>
    intro res tr heq
    rw [fetchAdditionalPagesLoop] at heq
    simp only [dif_pos h, hf] at heq
    exact absurd heq (by simp)
  | case2 acc p h pageData hf e herr ih =>
    intro res tr heq
    rw [fetchAdditionalPagesLoop] at heq
    simp only [dif_pos h, hf, herr] at heq
    exact absurd heq (by simp)
  | case3 acc p h pageData hf res0 tr0 hrec ih =>
    intro res tr heq
    rw [fetchAdditionalPagesLoop] at heq
    simp only [dif_pos h, hf, hrec, Except.ok.injEq, Prod.mk.injEq] at heq
    obtain ⟨-, htr⟩ := heq
    subst htr
    have ih0 := ih res0 tr0 hrec
    have hp := h.2
    simp only [List.length_cons]
    omega
  | case4 acc p h =>
    intro res tr heq
    rw [fetchAdditionalPagesLoop] at heq
    simp only [dif_neg h, Except.ok.injEq, Prod.mk.injEq] at heq
    obtain ⟨-, htr⟩ := heq
    subst htr
    simp

theorem loop_ok_of_fetcher_ok (fetcher : Nat → Except FetchErr (List Artwork))
    (N T : Nat) (acc : List Artwork) (p : Nat)
    (hok : ∀ q, ∃ d, fetcher q = .ok d) :
    ∃ res tr, fetchAdditionalPagesLoop fetcher N T acc p = .ok (res, tr) := by
  induction acc, p using fetchAdditionalPagesLoop.induct fetcher N T with
  | case1 acc p h e hf =>
    obtain ⟨d, hd⟩ := hok p
    rw [hd] at hf
    simp at hf
  | case2 acc p h pageData hf e herr ih =>
    obtain ⟨res, tr, hok2⟩ := ih
    rw [hok2] at herr
    simp at herr
  | case3 acc p h pageData hf res0 tr0 hrec ih =>
    refine ⟨res0, p :: tr0, ?_⟩
    rw [fetchAdditionalPagesLoop]
    simp only [dif_pos h, hf, hrec]
  | case4 acc p h =>
    refine ⟨acc, [], ?_⟩
    rw [fetchAdditionalPagesLoop]
    simp only [dif_neg h]

theorem loop_step (fetcher : Nat → Except FetchErr (List Artwork))
    (N T : Nat) (acc : List Artwork) (p : Nat)
    (hcond : acc.length < N ∧ p ≤ T / 12)
    (d : List Artwork) (hf : fetcher p = .ok d) :
    fetchAdditionalPagesLoop fetcher N T acc p
      = (fetchAdditionalPagesLoop fetcher N T (acc ++ d) (p + 1)).map
          (fun r => (r.1, p :: r.2)) := by
  rw [fetchAdditionalPagesLoop, dif_pos hcond]
  cases hl : fetchAdditionalPagesLoop fetcher N T (acc ++ d) (p + 1) with
  | error e => simp only [hf, hl, Except.map]
  | ok pr =>
    obtain ⟨a, b⟩ := pr
    simp only [hf, hl, Except.map]

theorem loop_step_err (fetcher : Nat → Except FetchErr (List Artwork))
    (N T : Nat) (acc : List Artwork) (p : Nat)
    (hcond : acc.length < N ∧ p ≤ T / 12)
    (e : FetchErr) (hf : fetcher p = .error e) :
    fetchAdditionalPagesLoop fetcher N T acc p = .error e := by
  rw [fetchAdditionalPagesLoop, dif_pos hcond, hf]

theorem loop_stop (fetcher : Nat → Except FetchErr (List Artwork))
    (N T : Nat) (acc : List Artwork) (p : Nat)
    (hcond : ¬(acc.length < N ∧ p ≤ T / 12)) :
    fetchAdditionalPagesLoop fetcher N T acc p = .ok (acc, []) := by
  rw [fetchAdditionalPagesLoop, dif_neg hcond]

theorem fetchAdditionalPages_eq_of_loop (fetcher : Nat → Except FetchErr (List Artwork))
    (artworks : List Artwork) (T N cur : Nat) (l : List Artwork) (tr : List Nat)
    (h : fetchAdditionalPagesLoop fetcher N T artworks (cur + 1) = .ok (l, tr)) :
    fetchAdditionalPages fetcher artworks T N cur = .ok (l.take N, tr) := by
  unfold fetchAdditionalPages
  rw [h]

theorem fetchAdditionalPages_eq_of_loop_err (fetcher : Nat → Except FetchErr (List Artwork))
    (artworks : List Artwork) (T N cur : Nat) (e : FetchErr)
    (h : fetchAdditionalPagesLoop fetcher N T artworks (cur + 1) = .error e) :
    fetchAdditionalPages fetcher artworks T N cur = .error e := by
  unfold fetchAdditionalPages
  rw [h]

theorem fetchAdditionalPages_ok_inv (fetcher : Nat → Except FetchErr (List Artwork))
    (artworks : List Artwork) (T N cur : Nat) (res : List Artwork) (tr : List Nat)
    (h : fetchAdditionalPages fetcher artworks T N cur = .ok (res, tr)) :
    ∃ l, fetchAdditionalPagesLoop fetcher N T artworks (cur + 1) = .ok (l, tr)
      ∧ res = l.take N := by
  unfold fetchAdditionalPages at h
  cases hl : fetchAdditionalPagesLoop fetcher N T artworks (cur + 1) with
  | error e =>
    rw [hl] at h
    simp at h
  | ok pr =>
    obtain ⟨l, tr0⟩ := pr
    rw [hl] at h
    simp only [Except.ok.injEq, Prod.mk.injEq] at h
    obtain ⟨hres, htr⟩ := h
    subst htr
    exact ⟨l, rfl, hres.symm⟩

theorem chain_succ_range' (n : Nat) :
    ∀ s, List.Chain' (fun a b => b = a + 1) (List.range' s n) := by
  induction n with
  | zero => intro s; simp
  | succ m ih =>
    intro s
    rw [List.range'_succ]
    cases m with
    | zero => simp
    | succ k =>
      rw [List.range'_succ]
      refine List.chain'_cons.mpr ⟨rfl, ?_⟩
      rw [← List.range'_succ]
      exact ih (s + 1)

/-! ### Claim theorems -/

/-- Claim C1, evaluated at a failing input: with two records loaded and
`rowsToFetch = 1`, `handleRowSelection` merges BOTH loaded records into the
selection set, not just the first one — the fast path uses `[...artworks]`
without slicing to the requested count.  No network call is made: the
always-failing fetcher is never consulted, yet the call succeeds. -/
theorem claim_C1_failing_eval :
    handleRowSelection (fun _ => .error .networkError)
        ⟨[mkArt 1, mkArt 2], 1, 0, 30, [], true, some 1⟩
      = (⟨[mkArt 1, mkArt 2], 1, 0, 30,
          [(1, mkArt 1), (2, mkArt 2)], false, some 1⟩, none)
    ∧ [(1, mkArt 1), (2, mkArt 2)].length ≠ 1 := by
  exact ⟨rfl, by decide⟩

/-- A remote source with 30 records in pages of 12: page 2 holds ids 13-24,
page 3 holds ids 25-30; any other request fails. -/
def fetcher30 : Nat → Except FetchErr (List Artwork) :=
  fun q =>
    if q = 2 then .ok (pageOf 13 12)
    else if q = 3 then .ok (pageOf 25 6)
    else .error .networkError

/-- Claim C2, evaluated at a failing input: with pageSize 12,
totalRecordCount 30 and page 1 loaded, `ensure(30)` fetches ONLY page 2
(the loop bound `nextPage <= totalRecords / 12` compares against 2.5, so the
partial page 3 is never requested) and returns 24 records, not
min(30, 30) = 30; `ensure(40)` in the same state also returns the same 24
records with the same single additional fetch. -/
theorem claim_C2_failing_eval :
    fetchAdditionalPages fetcher30 (pageOf 1 12) 30 30 1
        = .ok (pageOf 1 12 ++ pageOf 13 12, [2])
    ∧ (pageOf 1 12 ++ pageOf 13 12).length = 24
    ∧ fetchAdditionalPages fetcher30 (pageOf 1 12) 30 40 1
        = .ok (pageOf 1 12 ++ pageOf 13 12, [2]) := by
  have h30 := loop_step fetcher30 30 30 (pageOf 1 12) 2 (by decide)
    (pageOf 13 12) rfl
  rw [loop_stop fetcher30 30 30 (pageOf 1 12 ++ pageOf 13 12) 3 (by decide)]
    at h30
  simp only [Except.map] at h30
  have h40 := loop_step fetcher30 40 30 (pageOf 1 12) 2 (by decide)
    (pageOf 13 12) rfl
  rw [loop_stop fetcher30 40 30 (pageOf 1 12 ++ pageOf 13 12) 3 (by decide)]
    at h40
  simp only [Except.map] at h40
  refine ⟨?_, by decide, ?_⟩
  · have := fetchAdditionalPages_eq_of_loop fetcher30 (pageOf 1 12) 30 30 1
      (pageOf 1 12 ++ pageOf 13 12) [2] h30
    rw [this, List.take_of_length_le (by decide)]
  · have := fetchAdditionalPages_eq_of_loop fetcher30 (pageOf 1 12) 30 40 1
      (pageOf 1 12 ++ pageOf 13 12) [2] h40
    rw [this, List.take_of_length_le (by decide)]

/-- Claim C3: with pageSize 12, totalRecordCount 30, currentPageNumber 1 and
12 records loaded, `ensure(20)` fetches exactly one additional page (page 2)
and returns exactly 20 records: the 12 loaded records followed by the first 8
records of page 2; `handleRowSelection` then merges exactly those 20 records
into the selection set. -/
theorem claim_C3_ensure20 (fetcher : Nat → Except FetchErr (List Artwork))
    (p1 p2 : List Artwork) (h1 : p1.length = 12) (hf : fetcher 2 = .ok p2)
    (h2 : p2.length = 12) :
    fetchAdditionalPages fetcher p1 30 20 1 = .ok (p1 ++ p2.take 8, [2])
    ∧ (p1 ++ p2.take 8).length = 20
    ∧ ∀ fr sel sf,
        handleRowSelection fetcher ⟨p1, 1, fr, 30, sel, sf, some 20⟩
          = (⟨p1, 1, fr, 30, mergeIn sel (p1 ++ p2.take 8), false, some 20⟩,
             none) := by
  have hloop := loop_step fetcher 20 30 p1 2 ⟨by omega, by norm_num⟩ p2 hf
  rw [loop_stop fetcher 20 30 (p1 ++ p2) 3
    (by rintro ⟨hlt, -⟩; rw [List.length_append, h1, h2] at hlt; omega)] at hloop
  simp only [Except.map] at hloop
  have hfa := fetchAdditionalPages_eq_of_loop fetcher p1 30 20 1 (p1 ++ p2) [2]
    hloop
  have htake : (p1 ++ p2).take 20 = p1 ++ p2.take 8 := by
    rw [List.take_append_eq_append_take, List.take_of_length_le (by omega), h1]
  rw [htake] at hfa
  refine ⟨hfa, by simp [h1, h2], ?_⟩
  intro fr sel sf
  simp only [handleRowSelection, jsFalsy]
  norm_num
  rw [h1]
  norm_num
  rw [hfa]
  simp [Except.map]

/-- A fetcher serving page 2 with ids 13-24 and failing on all other pages,
for the C3 witness. -/
def fetcherC3 : Nat → Except FetchErr (List Artwork) :=
  fun q => if q = 2 then .ok (pageOf 13 12) else .error .networkError

/-- Witness for claim C3: the scenario instantiated with concrete pages. -/
theorem claim_C3_witness :
    fetchAdditionalPages fetcherC3 (pageOf 1 12) 30 20 1
      = .ok (pageOf 1 12 ++ (pageOf 13 12).take 8, [2]) :=
  (claim_C3_ensure20 fetcherC3 (pageOf 1 12) (pageOf 13 12) rfl rfl rfl).1

/-- Claim C4, counterexample: a response whose body has NO data array (but a
well-formed pagination total) is accepted by `fetchArtworksByPage` without
any error — the error slot is `none` — and the undefined data array is
stored as the loaded page.  The code therefore does not fail with a decode
error on every ill-shaped response. -/
theorem claim_C4_counterexample :
    (fetchArtworksByPage (some ⟨none, some ⟨some 30⟩⟩) ⟨some [], some 0⟩).2
      = none
    ∧ (fetchArtworksByPage (some ⟨none, some ⟨some 30⟩⟩) ⟨some [], some 0⟩).1
      = ⟨none, some 30⟩ :=
  ⟨rfl, rfl⟩

/-- Claim C4 as amended: `fetchArtworksByPage` fails only when the transport
or JSON step rejects (`networkError`) or when the `pagination` object itself
is absent (a TypeError from reading `data.pagination.total`); a missing data
array or a pagination object without `total` is accepted silently.  Moreover
when the TypeError is thrown, the artworks cell has already been overwritten
with `data.data` — the update is partial, not rolled back. -/
theorem claim_C4_amended (body : ApiBody) (st : PageFetchState) :
    ((fetchArtworksByPage (some body) st).2 = none ↔ body.pagination ≠ none)
    ∧ (fetchArtworksByPage (some body) st).1.artworksVal = body.dataArr
    ∧ fetchArtworksByPage none st = (st, some .networkError) := by
  refine ⟨?_, ?_, rfl⟩ <;>
    cases hb : body.pagination <;> simp [fetchArtworksByPage, hb]

/-- Witness for claim C4's amended statement at a concrete well-shaped body. -/
theorem claim_C4_witness :
    (fetchArtworksByPage (some ⟨some [], some ⟨some 5⟩⟩) ⟨none, none⟩).2
      = none :=
  (claim_C4_amended ⟨some [], some ⟨some 5⟩⟩ ⟨none, none⟩).1.mpr (by simp)

/-- Claim C5: when the accumulation needed by `handleRowSelection` fails,
the whole operation fails with that error and the state — loaded page,
current page number, first row offset and the selection map — is returned
exactly as it was; nothing is merged. -/
theorem claim_C5_no_partial (fetcher : Nat → Except FetchErr (List Artwork))
    (st : LandingState) (N : Nat) (e : FetchErr)
    (hN : st.rowsToFetch = some N) (hgt : st.artworks.length < N)
    (hfail : fetchAdditionalPages fetcher st.artworks st.totalRecords N
        st.currentPage = .error e) :
    handleRowSelection fetcher st = (st, some e) := by
  have hfalsy : jsFalsy (some N) = false := by
    simp [jsFalsy]
    omega
  simp only [handleRowSelection, hN, hfalsy, Bool.false_eq_true, if_false,
    Option.getD_some, gt_iff_lt, if_pos hgt, hfail, Except.map]

/-- A fetcher that fails on every page, for the C5 witness. -/
def failFetcher : Nat → Except FetchErr (List Artwork) :=
  fun _ => .error .networkError

/-- The concrete state of the C5 witness: page 1 of a 30-record collection
loaded, 20 records requested. -/
def stC5 : LandingState :=
  ⟨pageOf 1 12, 1, 0, 30, [(99, mkArt 99)], true, some 20⟩

/-- Witness for claim C5: a failing fetch of page 2 during `ensure(20)`
leaves the whole state untouched. -/
theorem claim_C5_witness :
    handleRowSelection failFetcher stC5 = (stC5, some .networkError) :=
  claim_C5_no_partial failFetcher stC5 20 .networkError rfl (by decide)
    (fetchAdditionalPages_eq_of_loop_err failFetcher (pageOf 1 12) 30 20 1
      .networkError
      (loop_step_err failFetcher 20 30 (pageOf 1 12) 2 (by decide)
        .networkError rfl))

/-- Claim C6: within a single successful `ensure` call, the trace of fetched
page numbers is exactly `currentPageNumber+1, currentPageNumber+2, …` — each
page one more than the previous, strictly increasing, with no duplicates,
and never a page at or below the currently loaded one. -/
theorem claim_C6_trace (fetcher : Nat → Except FetchErr (List Artwork))
    (artworks : List Artwork) (T N cur : Nat) (res : List Artwork)
    (tr : List Nat)
    (h : fetchAdditionalPages fetcher artworks T N cur = .ok (res, tr)) :
    tr = List.range' (cur + 1) tr.length
    ∧ List.Chain' (fun a b => b = a + 1) tr
    ∧ List.Chain' (· < ·) tr
    ∧ tr.Nodup
    ∧ ∀ q ∈ tr, cur < q := by
  obtain ⟨l, hl, -⟩ := fetchAdditionalPages_ok_inv fetcher artworks T N cur
    res tr h
  have htr := loop_trace_range fetcher N T artworks (cur + 1) l tr hl
  obtain ⟨k, hk⟩ : ∃ k, tr = List.range' (cur + 1) k := ⟨tr.length, htr⟩
  subst hk
  refine ⟨by simp, chain_succ_range' k (cur + 1), ?_, ?_, ?_⟩
  · exact List.Chain'.imp (fun a b hab => by omega)
      (chain_succ_range' k (cur + 1))
  · exact List.nodup_range' (cur + 1) k
  · intro q hq
    rw [List.mem_range'_1] at hq
    omega

/-- A fetcher serving page 2 only, for the C6 witness. -/
def fetcherC6 : Nat → Except FetchErr (List Artwork) :=
  fun q => if q = 2 then .ok (pageOf 13 12) else .error .networkError

/-- Witness for claim C6: the trace of the concrete `ensure(20)` run is
`[2]`, which is the page range starting at `currentPageNumber + 1`. -/
theorem claim_C6_witness :
    ([2] : List Nat) = List.range' 2 ([2] : List Nat).length
    ∧ List.Chain' (fun a b => b = a + 1) ([2] : List Nat)
    ∧ List.Chain' (· < ·) ([2] : List Nat)
    ∧ ([2] : List Nat).Nodup
    ∧ ∀ q ∈ ([2] : List Nat), 1 < q := by
  have hloop := loop_step fetcherC6 20 30 (pageOf 1 12) 2 (by decide)
    (pageOf 13 12) rfl
  rw [loop_stop fetcherC6 20 30 (pageOf 1 12 ++ pageOf 13 12) 3 (by decide)]
    at hloop
  simp only [Except.map] at hloop
  exact claim_C6_trace fetcherC6 (pageOf 1 12) 30 20 1 _ [2]
    (fetchAdditionalPages_eq_of_loop fetcherC6 (pageOf 1 12) 30 20 1 _ [2]
      hloop)

/-- Claim C7: for a page-change event with a positive page size,
`handlePageChange` sets the current page number to
`floor(rowOffset / pageSize) + 1` and the first-row offset to the reported
offset, leaving the loaded page, selection and total untouched. -/
theorem claim_C7_goToOffset (st : LandingState) (first rows : Nat)
    (h : 0 < rows) :
    (handlePageChange st first rows).currentPage = first / rows + 1
    ∧ (handlePageChange st first rows).currentPage
        = Nat.floor ((first : ℚ) / (rows : ℚ)) + 1
    ∧ (handlePageChange st first rows).firstRow = first
    ∧ (handlePageChange st first rows).artworks = st.artworks
    ∧ (handlePageChange st first rows).selectedArtworks = st.selectedArtworks
    ∧ (handlePageChange st first rows).totalRecords = st.totalRecords := by
  refine ⟨rfl, ?_, rfl, rfl, rfl, rfl⟩
  simp [handlePageChange, Nat.floor_div_nat]

/-- Witness for claim C7: offset 24 with page size 12 lands on page 3. -/
theorem claim_C7_witness :
    (handlePageChange ⟨[], 1, 0, 30, [], false, none⟩ 24 12).currentPage
      = 24 / 12 + 1 :=
  (claim_C7_goToOffset ⟨[], 1, 0, 30, [], false, none⟩ 24 12 (by decide)).1

/-- Claim C8: for any sequence of records with pairwise-distinct identity
keys, the onSelectionChange replacement followed by reading the selection
back (`Array.from(map.values())`) returns exactly the given records, with
the same identities and in the same order, regardless of the previous
selection contents. -/
theorem claim_C8_replace_read (st : LandingState) (X : List Artwork)
    (h : (X.map Artwork.id).Nodup) :
    mapValues (onSelectionChange st X).selectedArtworks = X
    ∧ mapKeys (onSelectionChange st X).selectedArtworks = X.map Artwork.id := by
  have hrep : (onSelectionChange st X).selectedArtworks
      = X.map (fun a => (a.id, a)) := by
    simp [onSelectionChange, replaceAll_eq X h]
  rw [hrep]
  constructor
  · rw [mapValues, List.map_map]
    exact List.map_id X
  · rw [mapKeys, List.map_map]
    rfl

/-- Witness for claim C8: three records in a deliberate non-sorted order,
replacing a non-empty previous selection, read back unchanged. -/
theorem claim_C8_witness :
    mapValues (onSelectionChange ⟨[], 1, 0, 30, [(9, mkArt 9)], false, none⟩
        [mkArt 3, mkArt 1, mkArt 2]).selectedArtworks
      = [mkArt 3, mkArt 1, mkArt 2] :=
  (claim_C8_replace_read ⟨[], 1, 0, 30, [(9, mkArt 9)], false, none⟩
    [mkArt 3, mkArt 1, mkArt 2] (by decide)).1

/-- Claim C9: whenever the transport succeeds (whatever page contents it
returns — the loop never reads a total out of intermediate responses, its
bound is the `totalRecords` snapshot taken at call time), `ensure` completes
successfully after at most `totalRecords / 12 - currentPageNumber` fetches. -/
theorem claim_C9_termination (fetcher : Nat → Except FetchErr (List Artwork))
    (artworks : List Artwork) (T N cur : Nat)
    (hok : ∀ q, ∃ d, fetcher q = .ok d) :
    ∃ res tr, fetchAdditionalPages fetcher artworks T N cur = .ok (res, tr)
      ∧ tr.length ≤ T / 12 - cur := by
  obtain ⟨l, tr, hl⟩ := loop_ok_of_fetcher_ok fetcher N T artworks (cur + 1)
    hok
  refine ⟨l.take N, tr,
    fetchAdditionalPages_eq_of_loop fetcher artworks T N cur l tr hl, ?_⟩
  have hle := loop_trace_length_le fetcher N T artworks (cur + 1) l tr hl
  omega

/-- A fetcher whose every page is empty: the adversarial case in which the
accumulated length never grows, so only the page bound can stop the loop. -/
def emptyFetcher : Nat → Except FetchErr (List Artwork) :=
  fun _ => .ok []

/-- Witness for claim C9: even when every fetched page is empty and 100
records are requested out of a claimed total of 30, the call returns after
at most one additional fetch. -/
theorem claim_C9_witness :
    ∃ res tr, fetchAdditionalPages emptyFetcher [] 30 100 1 = .ok (res, tr)
      ∧ tr.length ≤ 30 / 12 - 1 :=
  claim_C9_termination emptyFetcher [] 30 100 1 (fun _ => ⟨[], rfl⟩)

/-- Claim C10: merging over an existing identity keeps the entry at its
original position in iteration order (only the value changes); a fresh
identity is appended at the end; consequently re-merging records whose
identities are all already selected never changes the key order of the
displayed selection. -/
theorem claim_C10_merge_order (m : SelMap) (a : Artwork)
    (rows : List Artwork) :
    (a.id ∈ mapKeys m → mapKeys (mapSet m a.id a) = mapKeys m)
    ∧ (a.id ∉ mapKeys m → mapSet m a.id a = m ++ [(a.id, a)])
    ∧ ((∀ b ∈ rows, b.id ∈ mapKeys m) → mapKeys (mergeIn m rows) = mapKeys m) :=
  ⟨mapSet_keys_of_mem m a.id a, mapSet_fresh m a.id a,
    fun h => mergeIn_keys_of_subset rows m h⟩

/-- A record with identity `n` and a distinguishing title, to exercise the
overwrite-in-place branch of the C10 witness. -/
def mkArtT (n : Nat) (t : String) : Artwork :=
  { mkArt n with title := t }

/-- Witness for claim C10: re-merging fresh copies of two already-selected
records leaves the key order of the selection unchanged. -/
theorem claim_C10_witness :
    mapKeys (mergeIn [(1, mkArt 1), (2, mkArt 2)]
        [mkArtT 1 "x", mkArtT 2 "y"])
      = mapKeys [(1, mkArt 1), (2, mkArt 2)] :=
  (claim_C10_merge_order [(1, mkArt 1), (2, mkArt 2)] (mkArtT 1 "x")
    [mkArtT 1 "x", mkArtT 2 "y"]).2.2 (by decide)

end PrimeReactLanding
